import Mathlib

/-!
Shallow embedding of the command-execution and status-decoding layer of
`golemfactory/yagna-usd` (files `src/command.rs`, `src/command/yagna.rs`,
`src/command/provider.rs`), together with theorems settling the spec claims.

Conventions of the embedding:
* Rust `String` / captured byte streams are Lean `String`.
* `BigDecimal` (exact decimal arithmetic) is `Rat`.
* `u64` values are `Nat` holding a value `< 2 ^ 64`; Rust release-mode
  wrapping subtraction is `u64sub` below.
* `HashMap` is an association list with first-match lookup (the maps here
  are built with distinct keys, and the only iteration is a commutative sum,
  so the unspecified iteration order of the Rust `HashMap` is immaterial).
* Fallible Rust functions returning `anyhow::Result` become `Except`.
-/

namespace YagnaUsd

/-- The five network names of `ya_core_model::payment::local::NetworkName`
used by this repository (external dependency type; strum derives give each
variant its own name as its string form, used both as table key via
`IntoStaticStr` and in error messages via `Display`). -/
inductive NetworkName where
  | Mainnet
  | Rinkeby
  | Goerli
  | Mumbai
  | Polygon
deriving DecidableEq, Repr

/-- String form of a network name (strum `Display` / `IntoStaticStr`). -/
def NetworkName.name : NetworkName → String
  | .Mainnet => "Mainnet"
  | .Rinkeby => "Rinkeby"
  | .Goerli => "Goerli"
  | .Mumbai => "Mumbai"
  | .Polygon => "Polygon"

/-- `PaymentPlatform` from `src/command/yagna.rs`: platform identifier,
driver identifier and token symbol, all compiled-in constants. -/
structure PaymentPlatform where
  platform : String
  driver : String
  token : String
deriving DecidableEq, Repr

/-- `PaymentDriver` from `src/command/yagna.rs`: a map from network-name
string to `PaymentPlatform`, embedded as an association list. -/
structure PaymentDriver where
  entries : List (String × PaymentPlatform)

/-- First-match association-list lookup, the embedding of `HashMap::get`. -/
def assocGet {α : Type} (key : String) : List (String × α) → Option α
  | [] => none
  | (k, v) :: rest => if k = key then some v else assocGet key rest

/-- The `ZKSYNC_DRIVER` static table from `src/command/yagna.rs`
(two entries: Mainnet and Rinkeby). -/
def ZKSYNC_DRIVER : PaymentDriver :=
  ⟨[ ("Mainnet", ⟨"zksync-mainnet-glm", "zksync", "GLM"⟩),
     ("Rinkeby", ⟨"zksync-rinkeby-tglm", "zksync", "tGLM"⟩) ]⟩

/-- The `ERC20_DRIVER` static table from `src/command/yagna.rs`
(five entries: Mainnet, Rinkeby, Goerli, Mumbai, Polygon). -/
def ERC20_DRIVER : PaymentDriver :=
  ⟨[ ("Mainnet", ⟨"erc20-mainnet-glm", "erc20", "GLM"⟩),
     ("Rinkeby", ⟨"erc20-rinkeby-tglm", "erc20", "tGLM"⟩),
     ("Goerli", ⟨"erc20-goerli-tglm", "erc20", "tGLM"⟩),
     ("Mumbai", ⟨"erc20-mumbai-tglm", "erc20", "tGLM"⟩),
     ("Polygon", ⟨"erc20-polygon-glm", "erc20", "GLM"⟩) ]⟩

/-- The error message produced by `PaymentDriver::platform` when a network
is absent from the table (the `anyhow!` format string). -/
def platformErrMsg (network : NetworkName) : String :=
  "Payment driver config for network '" ++ network.name ++ "' not found."

/-- `PaymentDriver::platform` from `src/command/yagna.rs`: direct keyed
lookup of the network's string name, error naming the network on absence. -/
def PaymentDriver.platform (d : PaymentDriver) (network : NetworkName) :
    Except String PaymentPlatform :=
  match assocGet network.name d.entries with
  | some p => .ok p
  | none => .error (platformErrMsg network)

/-- Substring test on character lists (used to state that an error message
contains a network's name). -/
def hasSubstr (sub : List Char) : List Char → Bool
  | [] => sub.isEmpty
  | c :: cs => sub.isPrefixOf (c :: cs) || hasSubstr sub cs

/-- Substring test on strings. -/
def strHasSubstr (sub s : String) : Bool :=
  hasSubstr sub.toList s.toList

/-- Rust release-mode `u64` wrapping subtraction: for operands below
`2 ^ 64` this is `(a + 2 ^ 64 - b) % 2 ^ 64`.  The source subtracts the
`agreements_count` fields with the plain `-` operator, which has exactly
this semantics (no underflow guard). -/
def u64sub (a b : Nat) : Nat :=
  (a + 2 ^ 64 - b) % 2 ^ 64

/-- `StatValue` of `ya_core_model::payment::local` (dependency type used by
this repository): an exact decimal amount plus a `u64` agreement count. -/
structure StatValue where
  total_amount : Rat
  agreements_count : Nat
deriving DecidableEq, Repr

/-- Componentwise addition of `StatValue` (the dependency's `Add` impl,
used by `InvoiceStatusNotes::unconfirmed` via `issued + received`). -/
def StatValue.add (a b : StatValue) : StatValue :=
  ⟨a.total_amount + b.total_amount, a.agreements_count + b.agreements_count⟩

/-- `StatusNotes` of `ya_core_model::payment::local`: payment buckets at the
requested / accepted / confirmed lifecycle stages. -/
structure StatusNotes where
  requested : StatValue
  accepted : StatValue
  confirmed : StatValue
deriving DecidableEq, Repr

/-- `InvoiceStatusNotes` of `ya_core_model::payment::local`: invoice buckets
at the issued / received / accepted / rejected lifecycle stages. -/
structure InvoiceStatusNotes where
  issued : StatValue
  received : StatValue
  accepted : StatValue
  rejected : StatValue
deriving DecidableEq, Repr

/-- `impl PaymentSummary for StatusNotes`, `total_pending` from
`src/command/yagna.rs`: accepted minus confirmed, amount exactly and count by
unguarded `u64` subtraction. -/
def StatusNotes.total_pending (s : StatusNotes) : Rat × Nat :=
  ( s.accepted.total_amount - s.confirmed.total_amount,
    u64sub s.accepted.agreements_count s.confirmed.agreements_count )

/-- `impl PaymentSummary for StatusNotes`, `unconfirmed` from
`src/command/yagna.rs`: requested minus accepted. -/
def StatusNotes.unconfirmed (s : StatusNotes) : Rat × Nat :=
  ( s.requested.total_amount - s.accepted.total_amount,
    u64sub s.requested.agreements_count s.accepted.agreements_count )

/-- `impl PaymentSummary for InvoiceStatusNotes`, `total_pending` from
`src/command/yagna.rs`: the accepted bucket verbatim. -/
def InvoiceStatusNotes.total_pending (s : InvoiceStatusNotes) : Rat × Nat :=
  (s.accepted.total_amount, s.accepted.agreements_count)

/-- `impl PaymentSummary for InvoiceStatusNotes`, `unconfirmed` from
`src/command/yagna.rs`: the sum of the issued and received buckets. -/
def InvoiceStatusNotes.unconfirmed (s : InvoiceStatusNotes) : Rat × Nat :=
  let value := s.issued.add s.received
  (value.total_amount, value.agreements_count)

/-- `ActivityStatus` from `src/command/yagna.rs`: label-to-count maps for
the last hour and for all time, plus an optional last-activity timestamp
(the timestamp plays no role in the derived counters; modelled as `Int`). -/
structure ActivityStatus where
  last1h : List (String × Nat)
  total : List (String × Nat)
  last_activity_ts : Option Int
deriving DecidableEq, Repr

/-- `ActivityStatus::last1h_processed`: the "Terminated" count of the
last-hour map, defaulting to 0 when absent. -/
def ActivityStatus.last1h_processed (a : ActivityStatus) : Nat :=
  (assocGet "Terminated" a.last1h).getD 0

/-- `ActivityStatus::in_progress`: sum over the last-hour entries whose key
is neither "Terminated" nor "New". -/
def ActivityStatus.in_progress (a : ActivityStatus) : Nat :=
  a.last1h.foldl
    (fun acc kv => if kv.1 ≠ "Terminated" ∧ kv.1 ≠ "New" then acc + kv.2 else acc)
    0

/-- `ActivityStatus::total_processed`: the "Terminated" count of the
all-time map, defaulting to 0 when absent. -/
def ActivityStatus.total_processed (a : ActivityStatus) : Nat :=
  (assocGet "Terminated" a.total).getD 0

/-- The observable outcome of one spawned child process: its exit code and
the two captured output streams.  `ExitStatus::success()` holds exactly when
the code is 0 (termination by signal is modelled as a nonzero code). -/
structure Output where
  exitCode : Int
  stdout : String
  stderr : String
deriving DecidableEq, Repr

/-- The failure value built by `YagnaCommand::run` on a non-zero exit: the
`anyhow!` message renders the attempted command and both captured streams;
modelled structurally so "carries" is checkable. -/
structure ExecError where
  cmd : List String
  stdout : String
  stderr : String
deriving DecidableEq, Repr

/-- The error taxonomy of the typed operations: child failure (`run`),
JSON/text decode failure, payment-table lookup failure, and the inner
domain error of the `id show` success/failure union. -/
inductive RunError where
  | exec (e : ExecError)
  | decodeErr (msg : String)
  | lookupErr (msg : String)
  | innerErr (msg : String)
deriving DecidableEq, Repr

/-- `YagnaCommand::run` from `src/command/yagna.rs`: stdin closed, stdout
and stderr captured independently; exit status decides success (raw stdout)
versus an error carrying the command and both streams. -/
def YagnaCommand.run (args : List String) (out : Output) :
    Except ExecError String :=
  if out.exitCode = 0 then .ok out.stdout
  else .error ⟨args, out.stdout, out.stderr⟩

/-- `YagnaCommand::run_json` from `src/command/yagna.rs`: appends the
`--json` flag, runs, then decodes stdout.  The serde decoder for the target
type is the parameter `dec` (external crate behaviour). -/
def YagnaCommand.run_json {α : Type} (dec : String → Option α)
    (args : List String) (out : Output) : Except RunError α :=
  match YagnaCommand.run (args ++ ["--json"]) out with
  | .error e => .error (.exec e)
  | .ok stdout =>
    match dec stdout with
    | some v => .ok v
    | none => .error (.decodeErr stdout)

/-- `Id` from `src/command/yagna.rs` (decoded from `id show`). -/
structure Id where
  node_id : String
deriving DecidableEq, Repr

/-- `YagnaCommand::default_id`: runs `id show --json`; the JSON payload is
itself a success/failure union, whose failure side becomes an error. -/
def YagnaCommand.default_id (dec : String → Option (Except String Id))
    (out : Output) : Except RunError Id :=
  match YagnaCommand.run_json dec ["id", "show"] out with
  | .error e => .error e
  | .ok (.error msg) => .error (.innerErr msg)
  | .ok (.ok v) => .ok v

/-- `YagnaCommand::version`: runs `version show --json` and decodes the
structured version info (result type abstract, decoder given). -/
def YagnaCommand.version {α : Type} (dec : String → Option α)
    (out : Output) : Except RunError α :=
  YagnaCommand.run_json dec ["version", "show"] out

/-- `YagnaCommand::invoice_status`: runs `payment invoice status --json`. -/
def YagnaCommand.invoice_status (dec : String → Option InvoiceStatusNotes)
    (out : Output) : Except RunError InvoiceStatusNotes :=
  YagnaCommand.run_json dec ["payment", "invoice", "status"] out

/-- `YagnaCommand::activity_status`: runs `activity status --json`. -/
def YagnaCommand.activity_status (dec : String → Option ActivityStatus)
    (out : Output) : Except RunError ActivityStatus :=
  YagnaCommand.run_json dec ["activity", "status"] out

/-- The argument list `YagnaCommand::payment_status` assembles before
executing: `payment status --account <addr>`, then — after resolving the
network in the driver table — `--network <name> --driver <driver>`.
Resolution failure aborts before any command is built. -/
def paymentStatusArgs (address : String) (network : NetworkName)
    (payment_driver : PaymentDriver) : Except String (List String) :=
  match payment_driver.platform network with
  | .error e => .error e
  | .ok pp =>
    .ok (["payment", "status", "--account", address]
      ++ ["--network", network.name] ++ ["--driver", pp.driver])

/-- `YagnaCommand::payment_status` from `src/command/yagna.rs`: resolve the
network through the driver table, then run the assembled command via
`run_json`.  The child's outcome is a function `child` of the argument list,
so a lookup failure provably consults no child at all. -/
def YagnaCommand.payment_status {α : Type} (address : String)
    (network : NetworkName) (payment_driver : PaymentDriver)
    (dec : String → Option α) (child : List String → Output) :
    Except RunError α :=
  match paymentStatusArgs address network payment_driver with
  | .error e => .error (.lookupErr e)
  | .ok args => YagnaCommand.run_json dec args (child (args ++ ["--json"]))

/-- `ProviderConfig` from `src/command/provider.rs`. -/
structure ProviderConfig where
  node_name : Option String
  subnet : Option String
  account : Option String
deriving DecidableEq, Repr

/-- `YaProviderCommand::get_config` from `src/command/provider.rs`: runs
`--json config get` with stderr INHERITED (not captured) and stdin closed,
then feeds stdout to serde regardless of the child's exit status — the
status field of the output is never inspected. -/
def YaProviderCommand.get_config (dec : String → Option ProviderConfig)
    (out : Output) : Except RunError ProviderConfig :=
  match dec out.stdout with
  | some c => .ok c
  | none => .error (.decodeErr "parsing ya-provider config get")

/-- `VersionRaw` from `src/command/yagna.rs`; an absent `build #` clause
yields an empty `build` field (`unwrap_or_default`). -/
structure VersionRaw where
  version : String
  sha : String
  date : String
  build : String
deriving DecidableEq, Repr

/-- Character class `[0-9.]` of the version-banner regex. -/
def isVerChar (c : Char) : Bool := c.isDigit || c == '.'

/-- Character class `[a-z0-9]` of the version-banner regex. -/
def isShaChar (c : Char) : Bool := ('a' ≤ c && c ≤ 'z') || c.isDigit

/-- Character class `[-0-9]` of the version-banner regex. -/
def isDateChar (c : Char) : Bool := c == '-' || c.isDigit

/-- Drops an exact literal from the front of a character list, failing when
it is not a prefix. -/
def dropLit (lit s : List Char) : Option (List Char) :=
  if lit.isPrefixOf s then some (s.drop lit.length) else none

/-- Anchored match of the regex
`yagna ([0-9.]+) \(([a-z0-9]+) ([-0-9]+)( build #(\d+))?` at the head of
`s`.  Because each `+`-class excludes the character that must follow it
(space or parenthesis), the regex engine's greedy matching never needs to
backtrack inside a class here, so maximal munch reproduces it exactly.  The
optional group contributes capture 5 only when `" build #"` followed by at
least one digit is present; otherwise the group is skipped and the build
field is empty.  (`\d` is modelled as ASCII digits.) -/
def matchVersionAt (s : List Char) : Option VersionRaw :=
  match dropLit "yagna ".toList s with
  | none => none
  | some r1 =>
    let ver := r1.takeWhile isVerChar
    if ver.isEmpty then none else
    match dropLit " (".toList (r1.dropWhile isVerChar) with
    | none => none
    | some r2 =>
      let sha := r2.takeWhile isShaChar
      if sha.isEmpty then none else
      match dropLit " ".toList (r2.dropWhile isShaChar) with
      | none => none
      | some r3 =>
        let date := r3.takeWhile isDateChar
        if date.isEmpty then none else
        let r4 := r3.dropWhile isDateChar
        let build :=
          match dropLit " build #".toList r4 with
          | some r5 => r5.takeWhile Char.isDigit
          | none => []
        some ⟨String.mk ver, String.mk sha, String.mk date, String.mk build⟩

/-- Unanchored leftmost search of the version-banner regex: try each start
position left to right. -/
def findVersion : List Char → Option VersionRaw
  | [] => matchVersionAt []
  | c :: cs =>
    match matchVersionAt (c :: cs) with
    | some v => some v
    | none => findVersion cs

/-- `YagnaCommand::version_raw` from `src/command/yagna.rs`: run
`--version`, then match the banner regex against the raw text; no match is
a decode failure (`bail!`), distinct from an execution failure. -/
def YagnaCommand.version_raw (out : Output) : Except RunError VersionRaw :=
  match YagnaCommand.run ["--version"] out with
  | .error e => .error (.exec e)
  | .ok stdout =>
    match findVersion stdout.toList with
    | some v => .ok v
    | none => .error (.decodeErr ("cannot parse yagna version " ++ stdout))

/-- The filesystem facts `YaCommand::new` and the builders consult:
symlink targets, path existence, and `Path::parent` (pure path surgery in
Rust, kept abstract here alongside the filesystem). -/
structure FsModel where
  readLink : String → Option String
  pathExists : String → Bool
  parentDir : String → Option String

/-- `Path::join`, on string paths. -/
def pjoin (p c : String) : String := p ++ "/" ++ c

/-- The symlink-following loop of `YaCommand::new`: at most `n` hops,
stopping early at the first non-link. -/
def resolveLinks (fs : FsModel) : Nat → String → String
  | 0, p => p
  | n + 1, p =>
    match fs.readLink p with
    | some q => resolveLinks fs n q
    | none => p

/-- `YaCommand` from `src/command.rs`: an optional base directory for the
companion binaries. -/
structure YaCommand where
  base_path : Option String
deriving DecidableEq, Repr

/-- `YaCommand::new` from `src/command.rs`: resolve the running binary's
path through at most 5 symlink hops, take its parent as candidate base, and
keep the base only when both `yagna` and `ya-provider` exist under it;
`currentExe` is the outcome of `env::current_exe()`. -/
def YaCommand.new (fs : FsModel) (currentExe : Except String String) :
    Except String YaCommand :=
  match currentExe with
  | .error e => .error e
  | .ok me0 =>
    let me := resolveLinks fs 5 me0
    match fs.parentDir me with
    | none => .error "Unable to resolve yagna binaries location"
    | some base =>
      if !fs.pathExists (pjoin base "yagna")
          || !fs.pathExists (pjoin base "ya-provider") then
        .ok ⟨none⟩
      else
        .ok ⟨some base⟩

/-- `YaCommand::cmd` from `src/command.rs`: qualify the program with the
base directory when present, else rely on PATH via the bare name. -/
def YaCommand.cmd (c : YaCommand) (program : String) : String :=
  match c.base_path with
  | some path => pjoin path program
  | none => program

/-- A built command descriptor: resolved program plus the environment
overrides set on it. -/
structure BuiltCommand where
  program : String
  env : List (String × String)
deriving DecidableEq, Repr

/-- `YaCommand::ya_provider` from `src/command.rs`: builds the
`ya-provider` command and, when the user's home directory is known and
`.local/lib/yagna/plugins` exists under it, sets `EXE_UNIT_PATH` to the
`ya-*.json` glob inside that directory; `homeDir` is `UserDirs::new()`'s
home lookup. -/
def YaCommand.ya_provider (fs : FsModel) (c : YaCommand)
    (homeDir : Option String) : Except String BuiltCommand :=
  let prog := c.cmd "ya-provider"
  match homeDir with
  | some home =>
    let plugins_dir := pjoin home ".local/lib/yagna/plugins"
    if fs.pathExists plugins_dir then
      .ok ⟨prog, [("EXE_UNIT_PATH", pjoin plugins_dir "ya-*.json")]⟩
    else
      .ok ⟨prog, []⟩
  | none => .ok ⟨prog, []⟩

/-- `YaCommand::yagna` from `src/command.rs`: a plain pass-through builder,
no environment overrides. -/
def YaCommand.yagna (c : YaCommand) : Except String BuiltCommand :=
  .ok ⟨c.cmd "yagna", []⟩

/-- Wrapping `u64` subtraction agrees with mathematical subtraction exactly
when no underflow occurs and the minuend is in range. -/
theorem u64sub_eq_sub (a b : Nat) (hba : b ≤ a) (ha : a < 2 ^ 64) :
    u64sub a b = a - b := by
  have h64 : (2 : Nat) ^ 64 = 18446744073709551616 := by norm_num
  simp only [u64sub, h64] at *
  omega

/-- C2: each of the five networks of the erc20 table resolves to exactly
its compiled-in platform/driver/token triple; for any network absent from a
given table, `platform` fails with the lookup error naming that network
(the message contains the network's name), in particular for Goerli, Mumbai
and Polygon in the two-entry zksync table. -/
theorem platform_lookup_exact :
    (ERC20_DRIVER.platform .Mainnet = .ok ⟨"erc20-mainnet-glm", "erc20", "GLM"⟩
      ∧ ERC20_DRIVER.platform .Rinkeby = .ok ⟨"erc20-rinkeby-tglm", "erc20", "tGLM"⟩
      ∧ ERC20_DRIVER.platform .Goerli = .ok ⟨"erc20-goerli-tglm", "erc20", "tGLM"⟩
      ∧ ERC20_DRIVER.platform .Mumbai = .ok ⟨"erc20-mumbai-tglm", "erc20", "tGLM"⟩
      ∧ ERC20_DRIVER.platform .Polygon = .ok ⟨"erc20-polygon-glm", "erc20", "GLM"⟩)
    ∧ (∀ (d : PaymentDriver) (n : NetworkName),
        assocGet n.name d.entries = none →
          d.platform n = .error (platformErrMsg n))
    ∧ (∀ n : NetworkName, strHasSubstr n.name (platformErrMsg n) = true)
    ∧ (ZKSYNC_DRIVER.platform .Goerli = .error (platformErrMsg .Goerli)
      ∧ ZKSYNC_DRIVER.platform .Mumbai = .error (platformErrMsg .Mumbai)
      ∧ ZKSYNC_DRIVER.platform .Polygon = .error (platformErrMsg .Polygon)) := by
  refine ⟨⟨rfl, rfl, rfl, rfl, rfl⟩, ?_, ?_, rfl, rfl, rfl⟩
  · intro d n h
    simp [PaymentDriver.platform, h]
  · intro n
    cases n <;> rfl

/-- Closed instance of `platform_lookup_exact`: the zksync table lacks
Goerli, so the lookup yields the error naming Goerli. -/
theorem platform_lookup_exact_witness :
    ZKSYNC_DRIVER.platform .Goerli = .error (platformErrMsg .Goerli) :=
  platform_lookup_exact.2.1 ZKSYNC_DRIVER .Goerli rfl

/-- C4: `StatusNotes` summaries subtract confirmed from accepted
(`total_pending`) and accepted from requested (`unconfirmed`), exactly on
the decimal amounts and, absent underflow, on the counts; the concrete
instance requested=10/5, accepted=7/3, confirmed=4/2 yields (3, 1) and
(3, 2); `InvoiceStatusNotes.total_pending` is the accepted bucket verbatim
and `InvoiceStatusNotes.unconfirmed` sums the issued and received buckets
componentwise. -/
theorem paymentSummary_arith :
    (StatusNotes.total_pending ⟨⟨10, 5⟩, ⟨7, 3⟩, ⟨4, 2⟩⟩ = (3, 1)
      ∧ StatusNotes.unconfirmed ⟨⟨10, 5⟩, ⟨7, 3⟩, ⟨4, 2⟩⟩ = (3, 2))
    ∧ (∀ s : StatusNotes,
        (s.total_pending).1 = s.accepted.total_amount - s.confirmed.total_amount
        ∧ (s.unconfirmed).1 = s.requested.total_amount - s.accepted.total_amount)
    ∧ (∀ s : StatusNotes,
        s.confirmed.agreements_count ≤ s.accepted.agreements_count →
        s.accepted.agreements_count < 2 ^ 64 →
        (s.total_pending).2
          = s.accepted.agreements_count - s.confirmed.agreements_count)
    ∧ (∀ s : StatusNotes,
        s.accepted.agreements_count ≤ s.requested.agreements_count →
        s.requested.agreements_count < 2 ^ 64 →
        (s.unconfirmed).2
          = s.requested.agreements_count - s.accepted.agreements_count)
    ∧ (∀ s : InvoiceStatusNotes,
        s.total_pending = (s.accepted.total_amount, s.accepted.agreements_count))
    ∧ (∀ s : InvoiceStatusNotes,
        s.unconfirmed = (s.issued.total_amount + s.received.total_amount,
          s.issued.agreements_count + s.received.agreements_count)) := by
  refine ⟨⟨?_, ?_⟩, fun s => ⟨rfl, rfl⟩, ?_, ?_, fun s => rfl, fun s => rfl⟩
  · simp only [StatusNotes.total_pending, Prod.mk.injEq]
    exact ⟨by norm_num, by decide⟩
  · simp only [StatusNotes.unconfirmed, Prod.mk.injEq]
    exact ⟨by norm_num, by decide⟩
  · intro s h hlt
    exact u64sub_eq_sub _ _ h hlt
  · intro s h hlt
    exact u64sub_eq_sub _ _ h hlt

/-- Closed instance of `paymentSummary_arith` at the spec's concrete
figures. -/
theorem paymentSummary_arith_witness :
    (StatusNotes.total_pending ⟨⟨10, 5⟩, ⟨7, 3⟩, ⟨4, 2⟩⟩).2 = 3 - 2
      ∧ (StatusNotes.unconfirmed ⟨⟨10, 5⟩, ⟨7, 3⟩, ⟨4, 2⟩⟩).2 = 5 - 3 :=
  ⟨paymentSummary_arith.2.2.1 ⟨⟨10, 5⟩, ⟨7, 3⟩, ⟨4, 2⟩⟩ (by decide) (by norm_num),
   paymentSummary_arith.2.2.2.1 ⟨⟨10, 5⟩, ⟨7, 3⟩, ⟨4, 2⟩⟩ (by decide) (by norm_num)⟩

/-- C9: the `StatusNotes` count subtractions carry no underflow guard —
under the preconditions `confirmed ≤ accepted` (for `total_pending`) and
`accepted ≤ requested` (for `unconfirmed`) they equal the true difference,
but with the preconditions violated the `u64` arithmetic wraps (e.g.
accepted count 1, confirmed count 2 gives `2 ^ 64 - 1`); the decimal amount
components are exact and may legitimately be negative without any
failure. -/
theorem statusNotes_count_preconditions :
    (∀ s : StatusNotes,
        s.confirmed.agreements_count ≤ s.accepted.agreements_count →
        s.accepted.agreements_count < 2 ^ 64 →
        (s.total_pending).2
          = s.accepted.agreements_count - s.confirmed.agreements_count
        ∧ s.confirmed.agreements_count + (s.total_pending).2
          = s.accepted.agreements_count)
    ∧ (∀ s : StatusNotes,
        s.accepted.agreements_count ≤ s.requested.agreements_count →
        s.requested.agreements_count < 2 ^ 64 →
        (s.unconfirmed).2
          = s.requested.agreements_count - s.accepted.agreements_count)
    ∧ (StatusNotes.total_pending ⟨⟨0, 0⟩, ⟨0, 1⟩, ⟨0, 2⟩⟩).2 = 2 ^ 64 - 1
    ∧ (StatusNotes.total_pending ⟨⟨0, 0⟩, ⟨1, 1⟩, ⟨2, 1⟩⟩ = (-1, 0)) := by
  refine ⟨?_, ?_, by decide, ?_⟩
  · intro s h hlt
    have he := u64sub_eq_sub _ _ h hlt
    refine ⟨he, ?_⟩
    simp only [StatusNotes.total_pending] at he ⊢
    omega
  · intro s h hlt
    exact u64sub_eq_sub _ _ h hlt
  · simp only [StatusNotes.total_pending, Prod.mk.injEq]
    exact ⟨by norm_num, by decide⟩

/-- Closed instance of `statusNotes_count_preconditions`: with counts
accepted 3 ≥ confirmed 2 and requested 5 ≥ accepted 3 the differences are
exact. -/
theorem statusNotes_count_preconditions_witness :
    ((StatusNotes.total_pending ⟨⟨10, 5⟩, ⟨7, 3⟩, ⟨4, 2⟩⟩).2 = 3 - 2
      ∧ 2 + (StatusNotes.total_pending ⟨⟨10, 5⟩, ⟨7, 3⟩, ⟨4, 2⟩⟩).2 = 3)
      ∧ (StatusNotes.unconfirmed ⟨⟨10, 5⟩, ⟨7, 3⟩, ⟨4, 2⟩⟩).2 = 5 - 3 :=
  ⟨statusNotes_count_preconditions.1 ⟨⟨10, 5⟩, ⟨7, 3⟩, ⟨4, 2⟩⟩
      (by decide) (by norm_num),
   statusNotes_count_preconditions.2.1 ⟨⟨10, 5⟩, ⟨7, 3⟩, ⟨4, 2⟩⟩
      (by decide) (by norm_num)⟩

/-- C5: on `last1h = {Terminated 3, New 2, Running 5}` the derived counters
give `last1h_processed = 3` and `in_progress = 5` (Running only), while
`total_processed` reads the "Terminated" count of the `total` map and is
independent of `last1h`. -/
theorem activityStatus_counters :
    ((ActivityStatus.mk [("Terminated", 3), ("New", 2), ("Running", 5)]
        [("Terminated", 7)] none).last1h_processed = 3
      ∧ (ActivityStatus.mk [("Terminated", 3), ("New", 2), ("Running", 5)]
        [("Terminated", 7)] none).in_progress = 5
      ∧ (ActivityStatus.mk [("Terminated", 3), ("New", 2), ("Running", 5)]
        [("Terminated", 7)] none).total_processed = 7)
    ∧ (∀ a b : ActivityStatus, a.total = b.total →
        a.total_processed = b.total_processed) := by
  refine ⟨⟨by decide, by decide, by decide⟩, ?_⟩
  intro a b h
  simp [ActivityStatus.total_processed, h]

/-- Closed instance of `activityStatus_counters`: two statuses sharing the
`total` map but with different `last1h` maps agree on `total_processed`. -/
theorem activityStatus_counters_witness :
    (ActivityStatus.mk [("Terminated", 3)] [("Terminated", 7)] none).total_processed
      = (ActivityStatus.mk [] [("Terminated", 7)] none).total_processed :=
  activityStatus_counters.2
    (ActivityStatus.mk [("Terminated", 3)] [("Terminated", 7)] none)
    (ActivityStatus.mk [] [("Terminated", 7)] none) rfl

/-- C10: the derived counters are total and default to 0 — a map lacking
the "Terminated" key makes `last1h_processed` (resp. `total_processed`)
return 0 rather than fail, and `in_progress` of an empty `last1h` map is
0. -/
theorem activityStatus_total_functions :
    (∀ (l t : List (String × Nat)) (ts : Option Int),
        assocGet "Terminated" l = none →
        (ActivityStatus.mk l t ts).last1h_processed = 0)
    ∧ (∀ (l t : List (String × Nat)) (ts : Option Int),
        assocGet "Terminated" t = none →
        (ActivityStatus.mk l t ts).total_processed = 0)
    ∧ (∀ (t : List (String × Nat)) (ts : Option Int),
        (ActivityStatus.mk [] t ts).in_progress = 0) := by
  refine ⟨?_, ?_, fun t ts => rfl⟩
  · intro l t ts h
    simp [ActivityStatus.last1h_processed, h]
  · intro l t ts h
    simp [ActivityStatus.total_processed, h]

/-- Closed instance of `activityStatus_total_functions` on maps without a
"Terminated" key. -/
theorem activityStatus_total_functions_witness :
    (ActivityStatus.mk [("Running", 5)] [("New", 1)] none).last1h_processed = 0
      ∧ (ActivityStatus.mk [("Running", 5)] [("New", 1)] none).total_processed = 0 :=
  ⟨activityStatus_total_functions.1 [("Running", 5)] [("New", 1)] none rfl,
   activityStatus_total_functions.2.1 [("Running", 5)] [("New", 1)] none rfl⟩

/-- A string built from a nonempty character list is nonempty. -/
theorem stringMk_ne_empty (l : List Char) (h : l ≠ []) : String.mk l ≠ "" := by
  intro hc
  exact h (by simpa using congrArg String.data hc)

/-- Every successful anchored match captures nonempty version, sha and date
fields: the three `+`-classes of the regex each require at least one
character. -/
theorem matchVersionAt_fields (s : List Char) (v : VersionRaw)
    (h : matchVersionAt s = some v) :
    v.version ≠ "" ∧ v.sha ≠ "" ∧ v.date ≠ "" := by
  unfold matchVersionAt at h
  dsimp only at h
  repeat' split at h
  any_goals (simp at h; done)
  · injection h with h
    subst h
    refine ⟨stringMk_ne_empty _ ?_, stringMk_ne_empty _ ?_,
      stringMk_ne_empty _ ?_⟩
    · simp_all [List.isEmpty_eq_true]
    · simp_all [List.isEmpty_eq_true]
    · simp_all [List.isEmpty_eq_true]
  · injection h with h
    subst h
    refine ⟨stringMk_ne_empty _ ?_, stringMk_ne_empty _ ?_,
      stringMk_ne_empty _ ?_⟩
    · simp_all [List.isEmpty_eq_true]
    · simp_all [List.isEmpty_eq_true]
    · simp_all [List.isEmpty_eq_true]

/-- The unanchored search inherits the nonempty-capture property from the
anchored match. -/
theorem findVersion_fields (s : List Char) (v : VersionRaw)
    (h : findVersion s = some v) :
    v.version ≠ "" ∧ v.sha ≠ "" ∧ v.date ≠ "" := by
  induction s with
  | nil => exact matchVersionAt_fields [] v h
  | cons c cs ih =>
    unfold findVersion at h
    cases hm : matchVersionAt (c :: cs) with
    | some w =>
      rw [hm] at h
      exact matchVersionAt_fields (c :: cs) v (hm.trans h)
    | none =>
      rw [hm] at h
      exact ih h

/-- C3: the banner "yagna 0.9.1 (abc1234 2022-05-10 build #42)" decodes to
version 0.9.1, sha abc1234, date 2022-05-10, build 42; the same banner
without a build clause decodes with an empty build field; when the pattern
matches nowhere in the output the result is a decode error — never a
success, and every success carries nonempty version, sha and date
fields. -/
theorem version_raw_decode :
    (YagnaCommand.version_raw ⟨0, "yagna 0.9.1 (abc1234 2022-05-10 build #42)", ""⟩
        = .ok ⟨"0.9.1", "abc1234", "2022-05-10", "42"⟩)
    ∧ (YagnaCommand.version_raw ⟨0, "yagna 0.9.1 (abc1234 2022-05-10)", ""⟩
        = .ok ⟨"0.9.1", "abc1234", "2022-05-10", ""⟩)
    ∧ (∀ out : Output, out.exitCode = 0 → findVersion out.stdout.toList = none →
        YagnaCommand.version_raw out
          = .error (.decodeErr ("cannot parse yagna version " ++ out.stdout)))
    ∧ (∀ (out : Output) (v : VersionRaw),
        YagnaCommand.version_raw out = .ok v →
        v.version ≠ "" ∧ v.sha ≠ "" ∧ v.date ≠ "") := by
  refine ⟨by rfl, by rfl, ?_, ?_⟩
  · intro out h0 hf
    simp only [YagnaCommand.version_raw, YagnaCommand.run, if_pos h0, hf]
  · intro out v h
    by_cases h0 : out.exitCode = 0
    · simp only [YagnaCommand.version_raw, YagnaCommand.run, if_pos h0] at h
      cases hm : findVersion out.stdout.toList with
      | some w =>
        rw [hm] at h
        exact findVersion_fields _ _ (hm.trans (congrArg some (Except.ok.inj h)))
      | none =>
        rw [hm] at h
        exact absurd h (by simp)
    · simp only [YagnaCommand.version_raw, YagnaCommand.run, if_neg h0] at h
      exact absurd h (by simp)

/-- Closed instance of `version_raw_decode`: a non-matching output yields
the decode error, and the example banner's captures are nonempty. -/
theorem version_raw_decode_witness :
    (YagnaCommand.version_raw ⟨0, "garbage", ""⟩
        = .error (.decodeErr ("cannot parse yagna version " ++ "garbage")))
    ∧ ((VersionRaw.mk "0.9.1" "abc1234" "2022-05-10" "42").version ≠ ""
        ∧ (VersionRaw.mk "0.9.1" "abc1234" "2022-05-10" "42").sha ≠ ""
        ∧ (VersionRaw.mk "0.9.1" "abc1234" "2022-05-10" "42").date ≠ "") :=
  ⟨version_raw_decode.2.2.1 ⟨0, "garbage", ""⟩ rfl rfl,
   version_raw_decode.2.2.2 ⟨0, "yagna 0.9.1 (abc1234 2022-05-10 build #42)", ""⟩
     ⟨"0.9.1", "abc1234", "2022-05-10", "42"⟩ version_raw_decode.1⟩

/-- C1 (amended): every yagna operation — all of which route through
`YagnaCommand::run` — maps a non-zero child exit to an execution error
carrying the attempted command and both captured streams verbatim (so the
error's stderr equals whatever the child wrote) and never a decoded value;
`get_config`, by contrast, never inspects the exit status (see the
counterexample theorem). -/
theorem run_nonzero_execution_error :
    (∀ (args : List String) (out : Output), out.exitCode ≠ 0 →
        YagnaCommand.run args out = .error ⟨args, out.stdout, out.stderr⟩)
    ∧ (∀ (α : Type) (dec : String → Option α) (args : List String)
        (out : Output), out.exitCode ≠ 0 →
        YagnaCommand.run_json dec args out
          = .error (.exec ⟨args ++ ["--json"], out.stdout, out.stderr⟩))
    ∧ (∀ (dec : String → Option (Except String Id)) (out : Output),
        out.exitCode ≠ 0 →
        YagnaCommand.default_id dec out
          = .error (.exec ⟨["id", "show", "--json"], out.stdout, out.stderr⟩))
    ∧ (∀ (α : Type) (dec : String → Option α) (out : Output),
        out.exitCode ≠ 0 →
        YagnaCommand.version dec out
          = .error (.exec ⟨["version", "show", "--json"], out.stdout, out.stderr⟩))
    ∧ (∀ (dec : String → Option InvoiceStatusNotes) (out : Output),
        out.exitCode ≠ 0 →
        YagnaCommand.invoice_status dec out
          = .error (.exec ⟨["payment", "invoice", "status", "--json"],
              out.stdout, out.stderr⟩))
    ∧ (∀ (dec : String → Option ActivityStatus) (out : Output),
        out.exitCode ≠ 0 →
        YagnaCommand.activity_status dec out
          = .error (.exec ⟨["activity", "status", "--json"],
              out.stdout, out.stderr⟩))
    ∧ (∀ out : Output, out.exitCode ≠ 0 →
        YagnaCommand.version_raw out
          = .error (.exec ⟨["--version"], out.stdout, out.stderr⟩)) := by
  have hrun : ∀ (args : List String) (out : Output), out.exitCode ≠ 0 →
      YagnaCommand.run args out = .error ⟨args, out.stdout, out.stderr⟩ := by
    intro args out h
    simp [YagnaCommand.run, h]
  have hjson : ∀ (α : Type) (dec : String → Option α) (args : List String)
      (out : Output), out.exitCode ≠ 0 →
      YagnaCommand.run_json dec args out
        = .error (.exec ⟨args ++ ["--json"], out.stdout, out.stderr⟩) := by
    intro α dec args out h
    simp [YagnaCommand.run_json, hrun _ _ h]
  refine ⟨hrun, hjson, ?_, ?_, ?_, ?_, ?_⟩
  · intro dec out h
    simp [YagnaCommand.default_id, hjson _ dec _ _ h]
  · intro α dec out h
    simpa using hjson _ dec ["version", "show"] _ h
  · intro dec out h
    simpa using hjson _ dec ["payment", "invoice", "status"] _ h
  · intro dec out h
    simpa using hjson _ dec ["activity", "status"] _ h
  · intro out h
    simp [YagnaCommand.version_raw, hrun _ _ h]

/-- Closed instance of `run_nonzero_execution_error` at exit code 1 with a
child that wrote to stderr. -/
theorem run_nonzero_execution_error_witness :
    YagnaCommand.run ["--version"] ⟨1, "partial out", "boom"⟩
        = .error ⟨["--version"], "partial out", "boom"⟩
    ∧ YagnaCommand.activity_status (fun _ => some ⟨[], [], none⟩)
        ⟨1, "", "boom"⟩
        = .error (.exec ⟨["activity", "status", "--json"], "", "boom"⟩) :=
  ⟨run_nonzero_execution_error.1 ["--version"] ⟨1, "partial out", "boom"⟩
      (by decide),
   run_nonzero_execution_error.2.2.2.2.2.1 (fun _ => some ⟨[], [], none⟩)
      ⟨1, "", "boom"⟩ (by decide)⟩

/-- C1 is false as stated for `get_config`: with exit code 1 and stderr
written, `get_config` still returns a successfully-decoded `ProviderConfig`
whenever stdout parses (serde is applied to stdout unconditionally; the
exit status is never read and stderr is inherited rather than captured). -/
theorem get_config_decodes_despite_nonzero_exit :
    (Output.mk 1 "{}" "boom").exitCode ≠ 0
    ∧ (Output.mk 1 "{}" "boom").stderr ≠ ""
    ∧ YaProviderCommand.get_config
        (fun s => if s = "{}" then some ⟨none, none, none⟩ else none)
        ⟨1, "{}", "boom"⟩
      = .ok ⟨none, none, none⟩ :=
  ⟨by decide, by decide, by rfl⟩

/-- C6: `payment_status` resolves the requested network through the driver
table before anything else — an absent network yields the lookup error
naming that network for every possible child behaviour (no child process is
consulted), while a present network contributes the `--account`,
`--network` and `--driver` arguments derived from the resolved entry. -/
theorem payment_status_network_resolution :
    (∀ (α : Type) (address : String) (network : NetworkName)
        (d : PaymentDriver) (dec : String → Option α)
        (child : List String → Output),
        assocGet network.name d.entries = none →
        YagnaCommand.payment_status address network d dec child
          = .error (.lookupErr (platformErrMsg network)))
    ∧ (∀ (address : String) (network : NetworkName) (d : PaymentDriver)
        (pp : PaymentPlatform), d.platform network = .ok pp →
        paymentStatusArgs address network d
          = .ok (["payment", "status", "--account", address]
              ++ ["--network", network.name] ++ ["--driver", pp.driver])) := by
  constructor
  · intro α address network d dec child h
    simp [YagnaCommand.payment_status, paymentStatusArgs,
      PaymentDriver.platform, h]
  · intro address network d pp h
    simp [paymentStatusArgs, h]

/-- Closed instance of `payment_status_network_resolution`: Goerli is
absent from the zksync table, so `payment_status` fails with the lookup
error whatever the child would have done; Mainnet is present, so the
argument list carries the account, network and resolved driver. -/
theorem payment_status_network_resolution_witness :
    YagnaCommand.payment_status "0xabc" .Goerli ZKSYNC_DRIVER
        (fun (_ : String) => (none : Option Unit)) (fun _ => ⟨0, "", ""⟩)
      = .error (.lookupErr (platformErrMsg .Goerli))
    ∧ paymentStatusArgs "0xabc" .Mainnet ZKSYNC_DRIVER
      = .ok (["payment", "status", "--account", "0xabc"]
          ++ ["--network", NetworkName.name .Mainnet] ++ ["--driver", "zksync"]) :=
  ⟨payment_status_network_resolution.1 Unit "0xabc" .Goerli ZKSYNC_DRIVER
      (fun _ => none) (fun _ => ⟨0, "", ""⟩) rfl,
   payment_status_network_resolution.2 "0xabc" .Mainnet ZKSYNC_DRIVER
      ⟨"zksync-mainnet-glm", "zksync", "GLM"⟩ rfl⟩

/-- C7: a constructed `YaCommand` holds a base directory only when both
companion binaries exist under the parent of the at-most-5-hop symlink
resolution of the running binary's path; either companion missing degrades
the whole set to PATH-based resolution (base `none`, bare names for every
program — never a partial mix); construction fails exactly when the running
binary's own path or the parent directory cannot be determined. -/
theorem yaCommand_new_invariant :
    (∀ (fs : FsModel) (exe : Except String String) (c : YaCommand) (b : String),
        YaCommand.new fs exe = .ok c → c.base_path = some b →
        (∃ me0, exe = .ok me0 ∧ fs.parentDir (resolveLinks fs 5 me0) = some b)
        ∧ fs.pathExists (pjoin b "yagna") = true
        ∧ fs.pathExists (pjoin b "ya-provider") = true)
    ∧ (∀ (fs : FsModel) (me0 base : String),
        fs.parentDir (resolveLinks fs 5 me0) = some base →
        (fs.pathExists (pjoin base "yagna") = false
          ∨ fs.pathExists (pjoin base "ya-provider") = false) →
        YaCommand.new fs (.ok me0) = .ok ⟨none⟩)
    ∧ (∀ (fs : FsModel) (exe : Except String String),
        (∃ e, YaCommand.new fs exe = .error e)
          ↔ (∃ e, exe = .error e)
            ∨ (∃ me0, exe = .ok me0
                ∧ fs.parentDir (resolveLinks fs 5 me0) = none))
    ∧ (∀ c : YaCommand, c.base_path = none →
        c.cmd "yagna" = "yagna" ∧ c.cmd "ya-provider" = "ya-provider")
    ∧ (∀ (c : YaCommand) (b : String), c.base_path = some b →
        c.cmd "yagna" = pjoin b "yagna"
          ∧ c.cmd "ya-provider" = pjoin b "ya-provider") := by
  refine ⟨?_, ?_, ?_, ?_, ?_⟩
  · intro fs exe c b hnew hbase
    cases exe with
    | error e => simp [YaCommand.new] at hnew
    | ok me0 =>
      simp only [YaCommand.new] at hnew
      cases hp : fs.parentDir (resolveLinks fs 5 me0) with
      | none => rw [hp] at hnew; simp at hnew
      | some base =>
        rw [hp] at hnew
        dsimp only at hnew
        by_cases hc : (!fs.pathExists (pjoin base "yagna")
            || !fs.pathExists (pjoin base "ya-provider")) = true
        · rw [if_pos hc] at hnew
          obtain rfl := Except.ok.inj hnew
          simp at hbase
        · rw [if_neg hc] at hnew
          obtain rfl := Except.ok.inj hnew
          simp only [YaCommand.base_path] at hbase
          obtain rfl := Option.some.inj hbase
          simp only [Bool.or_eq_true, Bool.not_eq_true', not_or] at hc
          exact ⟨⟨me0, rfl, hp⟩, by simpa using hc.1, by simpa using hc.2⟩
  · intro fs me0 base hp hmiss
    simp only [YaCommand.new, hp]
    rcases hmiss with h | h <;> simp [h]
  · intro fs exe
    cases exe with
    | error e => simp [YaCommand.new]
    | ok me0 =>
      cases hp : fs.parentDir (resolveLinks fs 5 me0) with
      | none => simp [YaCommand.new, hp]
      | some base =>
        simp only [YaCommand.new, hp]
        by_cases hc : (!fs.pathExists (pjoin base "yagna")
            || !fs.pathExists (pjoin base "ya-provider")) = true
        · simp [hc, hp]
        · simp [hc, hp]
  · intro c h
    simp [YaCommand.cmd, h]
  · intro c b h
    simp [YaCommand.cmd, h]

/-- A filesystem with no symlinks where every path exists and every path's
parent is `/opt/yagna` (used to instantiate `yaCommand_new_invariant`). -/
def fsAllUnderOpt : FsModel :=
  ⟨fun _ => none, fun _ => true, fun _ => some "/opt/yagna"⟩

/-- Closed instance of `yaCommand_new_invariant` on `fsAllUnderOpt`: the
constructed set keeps `/opt/yagna` and both companions exist there. -/
theorem yaCommand_new_invariant_witness :
    (∃ me0, (Except.ok "/opt/yagna/golemsp" : Except String String) = .ok me0
        ∧ fsAllUnderOpt.parentDir (resolveLinks fsAllUnderOpt 5 me0)
          = some "/opt/yagna")
    ∧ fsAllUnderOpt.pathExists (pjoin "/opt/yagna" "yagna") = true
    ∧ fsAllUnderOpt.pathExists (pjoin "/opt/yagna" "ya-provider") = true :=
  yaCommand_new_invariant.1 fsAllUnderOpt (.ok "/opt/yagna/golemsp")
    ⟨some "/opt/yagna"⟩ "/opt/yagna" rfl rfl

/-- C8: the provider builder sets exactly one environment override,
`EXE_UNIT_PATH`, pointing at the `ya-*.json` glob inside
`.local/lib/yagna/plugins` under the user's home, and only when that
directory exists; when the directory or the home is absent no variable is
set and the builder still succeeds; the daemon builder never sets any
environment variable. -/
theorem ya_provider_env_injection :
    (∀ (fs : FsModel) (c : YaCommand) (home : String),
        fs.pathExists (pjoin home ".local/lib/yagna/plugins") = true →
        YaCommand.ya_provider fs c (some home)
          = .ok ⟨c.cmd "ya-provider",
              [("EXE_UNIT_PATH",
                pjoin (pjoin home ".local/lib/yagna/plugins") "ya-*.json")]⟩)
    ∧ (∀ (fs : FsModel) (c : YaCommand) (home : String),
        fs.pathExists (pjoin home ".local/lib/yagna/plugins") = false →
        YaCommand.ya_provider fs c (some home) = .ok ⟨c.cmd "ya-provider", []⟩)
    ∧ (∀ (fs : FsModel) (c : YaCommand),
        YaCommand.ya_provider fs c none = .ok ⟨c.cmd "ya-provider", []⟩)
    ∧ (∀ (fs : FsModel) (c : YaCommand) (home : Option String)
        (bc : BuiltCommand),
        YaCommand.ya_provider fs c home = .ok bc →
        bc.env = [] ∨ ∃ v, bc.env = [("EXE_UNIT_PATH", v)])
    ∧ (∀ c : YaCommand, YaCommand.yagna c = .ok ⟨c.cmd "yagna", []⟩) := by
  refine ⟨?_, ?_, fun fs c => rfl, ?_, fun c => rfl⟩
  · intro fs c home h
    simp [YaCommand.ya_provider, h]
  · intro fs c home h
    simp [YaCommand.ya_provider, h]
  · intro fs c home bc h
    cases home with
    | none =>
      obtain rfl := Except.ok.inj h
      left; rfl
    | some home =>
      simp only [YaCommand.ya_provider] at h
      by_cases hex : fs.pathExists (pjoin home ".local/lib/yagna/plugins") = true
      · rw [if_pos hex] at h
        obtain rfl := Except.ok.inj h
        right; exact ⟨_, rfl⟩
      · rw [if_neg hex] at h
        obtain rfl := Except.ok.inj h
        left; rfl

/-- Closed instance of `ya_provider_env_injection`: with the plugin
directory present the single `EXE_UNIT_PATH` override is set; with it
absent the environment stays empty. -/
theorem ya_provider_env_injection_witness :
    YaCommand.ya_provider ⟨fun _ => none, fun _ => true, fun _ => none⟩
        ⟨none⟩ (some "/home/u")
      = .ok ⟨"ya-provider",
          [("EXE_UNIT_PATH",
            pjoin (pjoin "/home/u" ".local/lib/yagna/plugins") "ya-*.json")]⟩
    ∧ YaCommand.ya_provider ⟨fun _ => none, fun _ => false, fun _ => none⟩
        ⟨none⟩ (some "/home/u")
      = .ok ⟨"ya-provider", []⟩ :=
  ⟨ya_provider_env_injection.1 ⟨fun _ => none, fun _ => true, fun _ => none⟩
      ⟨none⟩ "/home/u" rfl,
   ya_provider_env_injection.2.1 ⟨fun _ => none, fun _ => false, fun _ => none⟩
      ⟨none⟩ "/home/u" rfl⟩

end YagnaUsd
